import Mathlib

/-!
Verification development for the gang_bot expense-splitting bot
(src/gang_bot.py).  The Python source is shallowly embedded: Python dicts
become association lists with insert-or-overwrite semantics, floats become
exact rationals, and the external collaborators (spreadsheet store, chat
transport, language-understanding adapter) are passed in as explicit data
or oracle functions.  Strings are ASCII in all inputs of interest, so
Python `str.lower`, `str.strip` and the regex character class `[^\d.]`
coincide with `String.toLower`, `String.trim` and a digit-or-dot filter.
-/

namespace GangBot

/-! ## Python-like primitives -/

/-- String constants used by the source, named so literals never directly
follow an identifier. -/
def emptyS : String := ""

def spaceS : String := " "

def commaS : String := ","

def commaSpace : String := ", "

def atS : String := "@"

def sALL : String := "ALL"

def sEXPENSE : String := "EXPENSE"

def sPAYMENT : String := "PAYMENT"

def sBALANCE : String := "BALANCE"

def sSETTLE : String := "SETTLE_INTENT"

def sUNKNOWN : String := "UNKNOWN"

def sPaymentDesc : String := "Payment"

def sAmount : String := "Amount"

def sDescription : String := "Description"

def sWhoRecipient : String := "Who (Recipient)"

def sWhoIsPre : String := "Who is "

def sTagThem : String := "? (Tag them)"

def msgMissingPre : String := "Missing info: **"

def msgMissingPost : String := "**"

def msgFallback : String := "I didn't catch that. Can you clarify?"

/-- Python `d[k] = v` on a dict represented as an association list:
overwrite the (unique) entry with key `k` in place, else append. -/
def dinsert {α : Type} : String → α → List (String × α) → List (String × α)
  | k, v, [] => [(k, v)]
  | k, v, p :: t => if p.1 = k then (k, v) :: t else p :: dinsert k v t

/-- Python `d.get(k)`: first entry with key `k`. -/
def dget {α : Type} : List (String × α) → String → Option α
  | [], _ => none
  | p :: t, k => if p.1 = k then some p.2 else dget t k

/-- Python `handle.lstrip('@')`: drop every leading `@`. -/
def stripAt (s : String) : String := String.mk (s.toList.dropWhile (fun c => c == '@'))

/-- Python `str.lower` (ASCII), written structurally so that it evaluates
inside the kernel. -/
def pyLower (s : String) : String := String.mk (s.toList.map Char.toLower)

/-- Python `s.split(',')` on the character list (keeps empty pieces). -/
def pySplitComma : List Char → List Char → List (List Char)
  | [], acc => [acc.reverse]
  | c :: cs, acc =>
    if c == ',' then acc.reverse :: pySplitComma cs []
    else pySplitComma cs (c :: acc)

/-- Python `str.strip()`: drop whitespace from both ends. -/
def pyStrip (cs : List Char) : List Char :=
  ((cs.dropWhile Char.isWhitespace).reverse.dropWhile Char.isWhitespace).reverse

/-- Python `sep.join(xs)`, written structurally. -/
def pyJoin (sep : String) : List String → String
  | [] => emptyS
  | [x] => x
  | x :: xs => x ++ sep ++ pyJoin sep xs

/-- Python `s.startswith("@")`. -/
def pyStartsAt (n : String) : Bool :=
  match n.toList with
  | [] => false
  | c :: _ => c == '@'

/-- `[x.strip() for x in s.split(',') if x.strip()]` from `get_balances`. -/
def splitCSV (s : String) : List String :=
  (((pySplitComma s.toList []).map (fun x => String.mk (pyStrip x)))).filter
    (fun x => x ≠ emptyS)

/-- `re.sub(r'[^\d.]', '', s)`: keep only digits and the decimal point. -/
def cleanAmount (s : String) : List Char :=
  s.toList.filter (fun c => c.isDigit || c == '.')

/-- Value of a digit string read in base 10. -/
def digitsToNat (cs : List Char) : Nat := cs.foldl (fun n c => 10 * n + (c.toNat - 48)) 0

/-- Python `float` applied to a nonempty string of digits and dots: defined
iff there is at most one dot and at least one digit, the value being exact
(the embedding uses rationals in place of IEEE floats). -/
def parseCleaned (cs : List Char) : Option ℚ :=
  let intp := cs.takeWhile (fun c => c ≠ '.')
  let rest := cs.dropWhile (fun c => c ≠ '.')
  match rest with
  | [] => if intp.isEmpty then none else some (digitsToNat intp : ℚ)
  | _ :: frac =>
    if frac.contains '.' then none
    else if intp.isEmpty && frac.isEmpty then none
    else some ((digitsToNat intp : ℚ) + (digitsToNat frac : ℚ) / (10 : ℚ) ^ frac.length)

/-- Lines 169-171 of the source: strip the amount cell, skip if empty,
else `float(...)` with `ValueError` modelled as `none`. -/
def parseAmount (s : String) : Option ℚ :=
  let cs := cleanAmount s
  if cs.isEmpty then none else parseCleaned cs

/-! ## Identity resolver (`update_user_cache`, `get_user_map`) -/

/-- One record of the `Users` sheet (`get_all_records` row). -/
structure UserRow where
  groupId : String
  firstName : String
  handle : String
  extId : String
  deriving DecidableEq

/-- `update_user_cache`: filter the `Users` records by group and build the
`first name -> handle` roster dict. -/
def update_user_cache (users : List UserRow) (gid : String) : List (String × String) :=
  users.foldl (fun r u => if u.groupId == gid then dinsert u.firstName u.handle r else r) []

/-- The three normalization entries that `get_user_map` inserts for one
roster item `(name, handle)`. -/
def addEntry (lk : List (String × String)) (e : String × String) : List (String × String) :=
  dinsert (pyLower (stripAt e.2)) e.2 (dinsert (pyLower e.2) e.2 (dinsert (pyLower e.1) e.2 lk))

/-- The three lowercased lookup keys one roster entry contributes. -/
def entryKeys (e : String × String) : List String :=
  [pyLower e.1, pyLower e.2, pyLower (stripAt e.2)]

/-- No two distinct roster entries contribute a common lookup key. -/
def disjointEntryKeys (roster : List (String × String)) : Prop :=
  List.Pairwise (fun e1 e2 => ∀ k ∈ entryKeys e1, k ∉ entryKeys e2) roster

/-- The normalization lookup `get_user_map` builds from a roster. -/
def build_lookup (roster : List (String × String)) : List (String × String) :=
  roster.foldl addEntry []

/-- `get_user_map`: `(lookup, roster)` for a group. -/
def get_user_map (users : List UserRow) (gid : String) :
    List (String × String) × List (String × String) :=
  (build_lookup (update_user_cache users gid), update_user_cache users gid)

/-- `lookup.get(x.lower(), x)`: canonical handle with raw fallback. -/
def resolve (lk : List (String × String)) (name : String) : String :=
  (dget lk (pyLower name)).getD name

/-! ## Balance engine (`get_balances`) -/

/-- `defaultdict(float)` state of the balance computation. -/
abbrev Bal := List (String × ℚ)

/-- `balances[k] += v` on a `defaultdict(float)`. -/
def bump : Bal → String → ℚ → Bal
  | [], k, v => [(k, v)]
  | p :: t, k, v => if p.1 = k then (p.1, p.2 + v) :: t else p :: bump t k v

/-- Reading one balance (missing keys read as `0`, as for `defaultdict`). -/
def balGet (b : Bal) (k : String) : ℚ := (dget b k).getD 0

/-- Total of all recorded balances. -/
def sumBal (b : Bal) : ℚ := (b.map (fun p => p.2)).sum

/-- Lines 188-194: the `split_between` list of a row given the participants
cell — either the deduplicated handle values of the lookup (for `ALL`;
`list(set(...))` in the source, whose iteration order is unspecified, is
modelled by `List.dedup`) or the individually resolved names. -/
def splitBetween (lk : List (String × String)) (cell : String) : List String :=
  let raw := splitCSV cell
  if raw.contains sALL then (lk.map (fun p => p.2)).dedup
  else raw.map (resolve lk)

/-- The body of the `for row in rows[1:]` loop of `get_balances`: one
ledger row folded into the running balances.  Cells are addressed through
`List.getD`, which the `6 < row.length` guard makes exact. -/
def processRow (lk : List (String × String)) (gid : String) (b : Bal) (row : List String) : Bal :=
  if 6 < row.length ∧ row.getD 6 emptyS = gid then
    match parseAmount (row.getD 1 emptyS) with
    | none => b
    | some amount =>
      if (splitCSV (row.getD 4 emptyS)).isEmpty then b
      else
        if (splitBetween lk (row.getD 4 emptyS)).isEmpty then b
        else
          (splitBetween lk (row.getD 4 emptyS)).foldl
            (fun acc person => bump acc person
              (-(amount / ((splitBetween lk (row.getD 4 emptyS)).length : ℚ))))
            (bump b (resolve lk (row.getD 3 emptyS)) amount)
  else b

/-- `get_balances(group_id)` over a snapshot of the `Expenses` rows (header
included) and the `Users` records. -/
def get_balances (expRows : List (List String)) (users : List UserRow) (gid : String) : Bal :=
  if expRows.length < 2 then []
  else (expRows.drop 1).foldl (processRow (get_user_map users gid).1 gid) []

/-! ## Conversation state machine (`process_natural_language`)

The handler is embedded per conversation key `(chat_id, user_id)`: the
global `pending_actions` dict is read and written only at that key, so its
projection to one key (an `Option String` holding the accumulated raw
text) carries the whole state the handler touches.  The language-
understanding adapter `ask_gemini_to_parse`, an external collaborator
invoked with the sender/roster context fixed for the call, is an oracle
`String → Option Parsed` over the submitted text; `None` is its failure
signal (Gemini error or unextractable JSON).  The `register_user` call at
the top of the handler only touches the `Users` sheet and is modelled
separately below.  Replies whose content no property depends on (the
balance and settlement reports) are represented by opaque constructors;
every reply constructor corresponds to exactly one message site of the
source. -/

/-- The JSON object the adapter returns (`intent` defaulted to `UNKNOWN`
by `parsed.get`, `involved` to `[]`).  Fields are untrusted adapter
output and may hold any value of their schema type. -/
structure Parsed where
  intent : String
  amount : Option ℚ
  description : Option String
  involved : List String
  target_user : Option String
  reply_message : Option String
  deriving DecidableEq

/-- Fixed per-update context: current date string, sender first name,
group title, `str(chat_id)`. -/
structure Ctx where
  date : String
  firstName : String
  groupTitle : String
  chatId : String
  deriving DecidableEq

/-- The row handed to `db.append_expense` (`[date, amount, desc,
user.first_name, involved_str, group_title, str(chat_id)]`). -/
structure SheetRow where
  date : String
  amount : Option ℚ
  desc : Option String
  payer : String
  involvedStr : String
  groupTitle : String
  groupId : String
  deriving DecidableEq

/-- Outcome of one `db.append_expense` call: the sheet accepted the row;
`_get_sheet` returned `None` so the append was silently skipped; or
`ws.append_row` raised into the caller's `try`. -/
inductive WriteOutcome where
  | ok
  | noSheet
  | raiseErr
  deriving DecidableEq

/-- The reply the handler sends for the update (one constructor per
message site of the source). -/
inductive Reply where
  | brainFreeze
  | clarify (question : String)
  | balanceReport
  | settleWho
  | settleInfo
  | logged (intent : String) (amount : Option ℚ) (desc : Option String) (involvedStr : String)
  | saveError
  | silent
  deriving DecidableEq

/-- Python truthiness of the `amount` field (`not amount`). -/
def pyFalsyNum (a : Option ℚ) : Bool :=
  match a with
  | none => true
  | some q => decide (q = 0)

/-- Python truthiness of an optional string (`not desc`). -/
def pyFalsyStr (s : Option String) : Bool :=
  match s with
  | none => true
  | some t => t == emptyS

/-- Python `a or b` on an optional string. -/
def pyOrStr (s : Option String) (d : String) : String :=
  if pyFalsyStr s then d else s.getD d

/-- Line 305: `if intent == 'PAYMENT' and not desc: desc = "Payment"`. -/
def autofillDesc (intent : String) (d : Option String) : Option String :=
  if intent == sPAYMENT && pyFalsyStr d then some sPaymentDesc else d

/-- Lines 315-316: `if intent == 'EXPENSE' and not involved: involved = ['ALL']`. -/
def defaultInvolved (intent : String) (inv : List String) : List String :=
  if intent == sEXPENSE && inv.isEmpty then [sALL] else inv

/-- Line 319: entries of `involved` with no handle sigil that are not `ALL`. -/
def unknownNames (inv : List String) : List String :=
  inv.filter (fun n => !(pyStartsAt n) && !(n == sALL))

/-- Lines 307-320: the `missing_fields` list for a financial intent, in
source order (`desc` is the post-autofill description; the unknown-name
scan runs on `involved` after the `EXPENSE` default). -/
def missingFields (intent : String) (amount : Option ℚ) (desc : Option String)
    (involvedRaw : List String) : List String :=
  (if pyFalsyNum amount then [sAmount] else []) ++
  (if pyFalsyStr desc then [sDescription] else []) ++
  (if intent == sPAYMENT && (involvedRaw.isEmpty || involvedRaw.contains sALL)
   then [sWhoRecipient] else []) ++
  (let unknown := unknownNames (defaultInvolved intent involvedRaw)
   if unknown.isEmpty then []
   else [sWhoIsPre ++ pyJoin commaSpace unknown ++ sTagThem])

/-- `intent in ['EXPENSE', 'PAYMENT']`. -/
def isFinancial (intent : String) : Bool := intent == sEXPENSE || intent == sPAYMENT

/-- Line 409: the ledger row built at commit. -/
def mkRow (ctx : Ctx) (amount : Option ℚ) (desc : Option String) (involved : List String) :
    SheetRow :=
  ⟨ctx.date, amount, desc, ctx.firstName, pyJoin commaSpace involved,
   ctx.groupTitle, ctx.chatId⟩

/-- Effect of one handler run on the conversation key: the key's pending
entry afterwards, the rows appended to the `Expenses` sheet, and the reply
shown to the user. -/
structure StepResult where
  pendingAfter : Option String
  appended : List SheetRow
  reply : Reply
  deriving DecidableEq

/-- Lines 285-429: everything after the adapter call, on the adapter's
result for the accumulated text. -/
def handleParsed (write : WriteOutcome) (ctx : Ctx) (pending : Option String)
    (full_text : String) (r : Option Parsed) : StepResult :=
  match r with
  | none => ⟨none, [], Reply.brainFreeze⟩
  | some p =>
    let intent := p.intent
    let desc := if isFinancial intent then autofillDesc intent p.description else p.description
    let involved := if isFinancial intent then defaultInvolved intent p.involved else p.involved
    let mf := if isFinancial intent
              then missingFields intent p.amount desc p.involved else []
    if intent == sUNKNOWN || !mf.isEmpty then
      let q := if !mf.isEmpty
               then msgMissingPre ++ pyJoin commaSpace mf ++ msgMissingPost
               else pyOrStr p.reply_message msgFallback
      ⟨some full_text, [], Reply.clarify q⟩
    else if intent == sBALANCE then ⟨pending, [], Reply.balanceReport⟩
    else if intent == sSETTLE then
      if pyFalsyStr p.target_user then ⟨pending, [], Reply.settleWho⟩
      else ⟨pending, [], Reply.settleInfo⟩
    else if isFinancial intent then
      let row := mkRow ctx p.amount desc involved
      match write with
      | WriteOutcome.ok => ⟨none, [row], Reply.logged intent p.amount desc row.involvedStr⟩
      | WriteOutcome.noSheet => ⟨none, [], Reply.logged intent p.amount desc row.involvedStr⟩
      | WriteOutcome.raiseErr => ⟨pending, [], Reply.saveError⟩
    else ⟨pending, [], Reply.silent⟩

/-- Lines 272-277: the accumulated transcript submitted to the adapter. -/
def fullTextOf (pending : Option String) (userText : String) : String :=
  match pending with
  | some prev => prev ++ spaceS ++ userText
  | none => userText

/-- `process_natural_language` for one conversation key: merge the new
text into the stored transcript, submit it to the adapter, and dispatch on
the parse. -/
def process_natural_language (parse : String → Option Parsed) (write : WriteOutcome)
    (ctx : Ctx) (pending : Option String) (userText : String) : StepResult :=
  handleParsed write ctx pending (fullTextOf pending userText)
    (parse (fullTextOf pending userText))

/-! ## User registration (`register_user`) -/

/-- The fields of a Telegram user object the source reads. -/
structure TgUser where
  is_bot : Bool
  firstName : String
  username : Option String
  uid : Nat
  deriving DecidableEq

/-- Identity-store operations a `register_user` call performs, in order. -/
inductive StoreOp where
  | readUsers
  | appendUserRow (row : UserRow)
  deriving DecidableEq

/-- `f"@{user.username}" if user.username else user.first_name`. -/
def handleOf (u : TgUser) : String :=
  match u.username with
  | some un => atS ++ un
  | none => u.firstName

/-- `register_user(user, chat_id)` acting on the `Users` records and the
per-group roster cache `user_cache`, returning the performed store
operations as a trace (append failures are logged and swallowed by the
source; the trace records the attempted operations). -/
def register_user (users : List UserRow) (cache : List (String × List (String × String)))
    (u : TgUser) (chatId : String) :
    List UserRow × List (String × List (String × String)) × List StoreOp :=
  if u.is_bot then (users, cache, [])
  else
    let roster := update_user_cache users chatId
    let cache1 := dinsert chatId roster cache
    if (roster.map (fun p => p.2)).contains (handleOf u) then
      (users, cache1, [StoreOp.readUsers])
    else
      let newRow : UserRow := ⟨chatId, u.firstName, handleOf u, toString u.uid⟩
      let users2 := users ++ [newRow]
      (users2, dinsert chatId (update_user_cache users2 chatId) cache1,
       [StoreOp.readUsers, StoreOp.appendUserRow newRow, StoreOp.readUsers])

/-! ## Concrete instances used in the example and witness theorems -/

def exG1 : String := "g1"

def exAlice : String := "@alice"

def exBob : String := "@bob"

/-- Roster store of the worked example: `{Alice: @alice, Bob: @bob}`. -/
def exUsers : List UserRow :=
  [⟨"g1", "Alice", "@alice", "1"⟩, ⟨"g1", "Bob", "@bob", "2"⟩]

def exLk : List (String × String) := (get_user_map exUsers exG1).1

def exHeader : List String :=
  ["Date", "Amount", "Description", "Paid By", "Split Between", "Group", "Group ID"]

/-- Ledger row of the worked example: amount 20, payer Alice, `ALL`. -/
def exRow1 : List String := ["2024-01-01", "20", "Lunch", "Alice", "ALL", "Gang", "g1"]

/-- A row whose amount cell strips to `12.3.4`, which `float` rejects. -/
def badAmountRow : List String := ["2024-01-02", "12.3.4USD", "Taxi", "Alice", "@alice", "Gang", "g1"]

/-- A roster on which the `ALL` expansion loses a handle: the no-username
user `Bob` (handle `Bob`) and the user with first name `bob` and username
`x` contribute the colliding lowercased lookup key `bob`. -/
def badUsers : List UserRow :=
  [⟨"g1", "Bob", "Bob", "1"⟩, ⟨"g1", "bob", "@x", "2"⟩]

def bobHandle : String := "Bob"

def xHandle : String := "@x"

def ctx0 : Ctx := ⟨"2024-01-01", "Alice", "Gang", "g1"⟩

/-- Parse of a first message carrying a description but no amount. -/
def pLunchNoAmt : Parsed := ⟨"EXPENSE", none, some "Lunch", [], none, none⟩

/-- Parse of the merged transcript, now complete with amount 20. -/
def pLunch20 : Parsed := ⟨"EXPENSE", some 20, some "Lunch", ["ALL"], none, none⟩

/-- Adapter oracle of the two-message scenario. -/
def parseW : String → Option Parsed := fun s =>
  if s == "lunch" then some pLunchNoAmt
  else if s == "lunch 20" then some pLunch20
  else none

/-- An adapter that always produces the complete expense parse. -/
def parseLunch20 : String → Option Parsed := fun _ => some pLunch20

/-- An always-failing adapter. -/
def parseNone : String → Option Parsed := fun _ => none

/-- An adapter answer with a negative amount, which truthiness-only
validation lets through. -/
def pNeg : Parsed := ⟨"EXPENSE", some (-5), some "Refund", ["@alice"], none, none⟩

def parseNeg : String → Option Parsed := fun _ => some pNeg

/-- A `PAYMENT` parse whose recipient list is the literal `ALL`. -/
def pPayAll : Parsed := ⟨"PAYMENT", some 10, none, ["ALL"], none, none⟩

def parsePayAll : String → Option Parsed := fun _ => some pPayAll

def tLunch : String := "lunch"

def t20 : String := "20"

/-- The row the completed example expense commits. -/
def exCommitRow : SheetRow :=
  ⟨"2024-01-01", some 20, some "Lunch", "Alice", "ALL", "Gang", "g1"⟩

/-- A bot user, as `register_user` receives it. -/
def botU : TgUser := ⟨true, "Bot", some "helper_bot", 9⟩

/-! ## Helper lemmas: balance bookkeeping -/

theorem balGet_bump (b : Bal) (k : String) (v : ℚ) (h : String) :
    balGet (bump b k v) h = balGet b h + (if h = k then v else 0) := by
  induction b with
  | nil =>
    by_cases hk : h = k
    · subst hk; simp [bump, balGet, dget]
    · have hk' : ¬ k = h := fun hh => hk hh.symm
      simp [bump, balGet, dget, hk, hk']
  | cons p t ih =>
    by_cases h1 : p.1 = k
    · by_cases h2 : h = k
      · subst h2; simp [bump, balGet, dget, h1]
      · have h2' : ¬ k = h := fun hh => h2 hh.symm
        have h3 : ¬ p.1 = h := fun hh => h2 ((hh.symm.trans h1))
        simp [bump, balGet, dget, h1, h2, h2', h3]
    · by_cases h3 : p.1 = h
      · have h4 : ¬ h = k := fun hh => h1 (h3.symm ▸ hh)
        simp [bump, balGet, dget, h1, h3, h4]
      · simpa [bump, balGet, dget, h1, h3] using ih

theorem sumBal_bump (b : Bal) (k : String) (v : ℚ) :
    sumBal (bump b k v) = sumBal b + v := by
  induction b with
  | nil => simp [bump, sumBal]
  | cons p t ih =>
    by_cases h1 : p.1 = k
    · simp [bump, sumBal, h1]; ring
    · simp only [bump, beq_iff_eq, h1, if_false, sumBal, List.map_cons, List.sum_cons] at ih ⊢
      rw [ih]; ring

theorem balGet_foldl_bump (l : List String) (c : ℚ) (b : Bal) (h : String) :
    balGet (l.foldl (fun acc x => bump acc x c) b) h = balGet b h + (l.count h : ℚ) * c := by
  induction l generalizing b with
  | nil => simp
  | cons x xs ih =>
    rw [List.foldl_cons, ih, balGet_bump]
    by_cases hx : h = x
    · subst hx; simp [List.count_cons]; ring
    · simp [List.count_cons, hx, Ne.symm hx]

theorem sumBal_foldl_bump (l : List String) (c : ℚ) (b : Bal) :
    sumBal (l.foldl (fun acc x => bump acc x c) b) = sumBal b + (l.length : ℚ) * c := by
  induction l generalizing b with
  | nil => simp
  | cons x xs ih =>
    rw [List.foldl_cons, ih, sumBal_bump, List.length_cons]
    push_cast
    ring

/-- A row that passes every guard changes each balance by the payer credit
minus one cost share per occurrence in `split_between`. -/
theorem processRow_delta (lk : List (String × String)) (gid : String) (b : Bal)
    (row : List String) (a : ℚ)
    (hg : 6 < row.length ∧ row.getD 6 emptyS = gid)
    (hpa : parseAmount (row.getD 1 emptyS) = some a)
    (hr : (splitCSV (row.getD 4 emptyS)).isEmpty = false)
    (hs : (splitBetween lk (row.getD 4 emptyS)).isEmpty = false)
    (h : String) :
    balGet (processRow lk gid b row) h =
      balGet b h + (if h = resolve lk (row.getD 3 emptyS) then a else 0) -
        ((splitBetween lk (row.getD 4 emptyS)).count h : ℚ) *
          (a / ((splitBetween lk (row.getD 4 emptyS)).length : ℚ)) := by
  unfold processRow
  rw [if_pos hg, hpa, hr, hs]
  simp only [Bool.false_eq_true, if_false]
  rw [balGet_foldl_bump, balGet_bump]
  ring

/-- A row skipped by any guard leaves the balances untouched. -/
theorem processRow_skip (lk : List (String × String)) (gid : String) (b : Bal)
    (row : List String)
    (hsk : ¬ (6 < row.length ∧ row.getD 6 emptyS = gid) ∨
      parseAmount (row.getD 1 emptyS) = none ∨
      (splitCSV (row.getD 4 emptyS)).isEmpty = true ∨
      (splitBetween lk (row.getD 4 emptyS)).isEmpty = true) :
    processRow lk gid b row = b := by
  by_cases hg : 6 < row.length ∧ row.getD 6 emptyS = gid
  · cases hpa : parseAmount (row.getD 1 emptyS) with
    | none => unfold processRow; rw [if_pos hg, hpa]
    | some a =>
      by_cases hr : (splitCSV (row.getD 4 emptyS)).isEmpty = true
      · unfold processRow; rw [if_pos hg, hpa, hr]; simp
      · by_cases hs : (splitBetween lk (row.getD 4 emptyS)).isEmpty = true
        · unfold processRow
          rw [if_pos hg, hpa, Bool.of_not_eq_true hr, hs]
          simp
        · rcases hsk with hsk | hsk | hsk | hsk
          · exact absurd hg hsk
          · rw [hsk] at hpa; cases hpa
          · exact absurd hsk hr
          · exact absurd hsk hs
  · unfold processRow; rw [if_neg hg]

theorem processRow_sum (lk : List (String × String)) (gid : String) (b : Bal)
    (row : List String) : sumBal (processRow lk gid b row) = sumBal b := by
  by_cases hg : 6 < row.length ∧ row.getD 6 emptyS = gid
  · cases hpa : parseAmount (row.getD 1 emptyS) with
    | none => unfold processRow; rw [if_pos hg, hpa]
    | some a =>
      by_cases hr : (splitCSV (row.getD 4 emptyS)).isEmpty = true
      · unfold processRow; rw [if_pos hg, hpa, hr]; simp
      · by_cases hs : (splitBetween lk (row.getD 4 emptyS)).isEmpty = true
        · unfold processRow
          rw [if_pos hg, hpa, Bool.of_not_eq_true hr, hs]
          simp
        · have hne : splitBetween lk (row.getD 4 emptyS) ≠ [] := by
            intro hnil; exact hs (by rw [hnil]; rfl)
          have hn : ((splitBetween lk (row.getD 4 emptyS)).length : ℚ) ≠ 0 := by
            exact_mod_cast fun hz =>
              hne (List.length_eq_zero.mp (by exact_mod_cast hz))
          unfold processRow
          rw [if_pos hg, hpa, Bool.of_not_eq_true hr, Bool.of_not_eq_true hs]
          simp only [Bool.false_eq_true, if_false]
          rw [sumBal_foldl_bump, sumBal_bump]
          generalize hgen : ((splitBetween lk (row.getD 4 emptyS)).length : ℚ) = n at hn ⊢
          field_simp
          ring
  · unfold processRow; rw [if_neg hg]

theorem sumBal_foldl_rows (lk : List (String × String)) (gid : String)
    (rows : List (List String)) (b : Bal) :
    sumBal (rows.foldl (processRow lk gid) b) = sumBal b := by
  induction rows generalizing b with
  | nil => rfl
  | cons r rs ih => rw [List.foldl_cons, ih, processRow_sum]

/-! ## Helper lemmas: the normalization lookup -/

theorem dget_dinsert_self {α : Type} (k : String) (v : α) (d : List (String × α)) :
    dget (dinsert k v d) k = some v := by
  induction d with
  | nil => simp [dinsert, dget]
  | cons p t ih =>
    by_cases h1 : p.1 = k
    · simp [dinsert, dget, h1]
    · simp [dinsert, dget, h1, ih]

theorem dget_dinsert_ne {α : Type} (k k' : String) (v : α) (d : List (String × α))
    (hne : k' ≠ k) : dget (dinsert k v d) k' = dget d k' := by
  have hne' : ¬ k = k' := fun h => hne h.symm
  induction d with
  | nil => simp [dinsert, dget, hne']
  | cons p t ih =>
    by_cases h1 : p.1 = k
    · have hp : ¬ p.1 = k' := fun hh => hne' (h1 ▸ hh)
      simp [dinsert, dget, h1, hne', hp]
    · by_cases h2 : p.1 = k'
      · simp [dinsert, dget, h1, h2, hne]
      · simp [dinsert, dget, h1, h2, ih]

theorem mem_values_of_dget {α : Type} (d : List (String × α)) (k : String) (v : α)
    (h : dget d k = some v) : v ∈ d.map (fun p => p.2) := by
  induction d with
  | nil => simp [dget] at h
  | cons p t ih =>
    by_cases h1 : p.1 = k
    · simp only [dget, h1, beq_self_eq_true, if_true, Option.some.injEq] at h
      simp [← h]
    · simp only [dget, h1, beq_iff_eq, if_false, if_neg h1] at h
      simp [ih h]

theorem values_dinsert_sub {α : Type} (k : String) (v x : α) (d : List (String × α))
    (h : x ∈ (dinsert k v d).map (fun p => p.2)) :
    x ∈ d.map (fun p => p.2) ∨ x = v := by
  induction d with
  | nil => simpa [dinsert] using h
  | cons p t ih =>
    by_cases h1 : p.1 = k
    · simp only [dinsert, h1, beq_self_eq_true, if_true, List.map_cons, List.mem_cons] at h
      rcases h with h | h
      · exact Or.inr h
      · exact Or.inl (by simp [h])
    · simp only [dinsert, beq_iff_eq, h1, if_false, if_neg h1, List.map_cons,
        List.mem_cons] at h
      rcases h with h | h
      · exact Or.inl (by simp [h])
      · rcases ih h with h2 | h2
        · exact Or.inl (by simp [h2])
        · exact Or.inr h2

theorem dget_addEntry_of_mem (lk : List (String × String)) (e : String × String) :
    dget (addEntry lk e) (pyLower (stripAt e.2)) = some e.2 :=
  dget_dinsert_self _ _ _

theorem dget_addEntry_frame (lk : List (String × String)) (e : String × String) (k : String)
    (h : k ∉ entryKeys e) : dget (addEntry lk e) k = dget lk k := by
  simp only [entryKeys, List.mem_cons, List.not_mem_nil, or_false, not_or] at h
  unfold addEntry
  rw [dget_dinsert_ne _ _ _ _ h.2.2, dget_dinsert_ne _ _ _ _ h.2.1,
    dget_dinsert_ne _ _ _ _ h.1]

theorem values_addEntry_sub (lk : List (String × String)) (e : String × String) (x : String)
    (h : x ∈ (addEntry lk e).map (fun p => p.2)) :
    x ∈ lk.map (fun p => p.2) ∨ x = e.2 := by
  unfold addEntry at h
  rcases values_dinsert_sub _ _ _ _ h with h1 | h1
  · rcases values_dinsert_sub _ _ _ _ h1 with h2 | h2
    · exact values_dinsert_sub _ _ _ _ h2
    · exact Or.inr h2
  · exact Or.inr h1

theorem values_build_sub (roster lk : List (String × String)) (x : String)
    (h : x ∈ (roster.foldl addEntry lk).map (fun p => p.2)) :
    x ∈ lk.map (fun p => p.2) ∨ x ∈ roster.map (fun p => p.2) := by
  induction roster generalizing lk with
  | nil => exact Or.inl h
  | cons r rs ih =>
    rw [List.foldl_cons] at h
    rcases ih _ h with h1 | h1
    · rcases values_addEntry_sub _ _ _ h1 with h2 | h2
      · exact Or.inl h2
      · exact Or.inr (by simp [h2])
    · exact Or.inr (by simp [h1, List.mem_cons])

theorem dget_foldl_frame (roster lk : List (String × String)) (k : String)
    (h : ∀ e ∈ roster, k ∉ entryKeys e) :
    dget (roster.foldl addEntry lk) k = dget lk k := by
  induction roster generalizing lk with
  | nil => rfl
  | cons r rs ih =>
    rw [List.foldl_cons, ih _ (fun e he => h e (List.mem_cons_of_mem _ he)),
      dget_addEntry_frame _ _ _ (h r (List.mem_cons_self _ _))]

theorem dget_build_of_mem (roster lk : List (String × String)) (e : String × String)
    (hd : disjointEntryKeys roster) (he : e ∈ roster) :
    dget (roster.foldl addEntry lk) (pyLower (stripAt e.2)) = some e.2 := by
  induction roster generalizing lk with
  | nil => cases he
  | cons r rs ih =>
    rw [disjointEntryKeys, List.pairwise_cons] at hd
    rcases List.mem_cons.mp he with he1 | he1
    · subst he1
      rw [List.foldl_cons,
        dget_foldl_frame _ _ _
          (fun e' he' => hd.1 e' he' _ (by simp [entryKeys]))]
      exact dget_addEntry_of_mem _ _
    · rw [List.foldl_cons]
      exact ih _ hd.2 he1

/-- Membership in the `ALL` expansion equals membership in the roster's
handles, provided distinct roster entries never share a lowercased
lookup key. -/
theorem mem_expansion_iff (roster : List (String × String)) (h : String)
    (hd : disjointEntryKeys roster) :
    h ∈ (build_lookup roster).map (fun p => p.2) ↔ h ∈ roster.map (fun p => p.2) := by
  constructor
  · intro hm
    rcases values_build_sub _ _ _ hm with h1 | h1
    · simp at h1
    · exact h1
  · intro hm
    rcases List.mem_map.mp hm with ⟨e, he, hev⟩
    exact mem_values_of_dget _ _ _ (hev ▸ dget_build_of_mem roster [] e hd he)

/-! ## Helper lemmas: the state machine -/

theorem isFinancial_cases (intent : String) (h : isFinancial intent = true) :
    intent = sEXPENSE ∨ intent = sPAYMENT := by
  rcases Bool.or_eq_true_iff.mp h with h1 | h1
  · exact Or.inl (by simpa using h1)
  · exact Or.inr (by simpa using h1)

theorem financial_not_unknown (intent : String) (h : isFinancial intent = true) :
    (intent == sUNKNOWN) = false := by
  rcases isFinancial_cases intent h with h1 | h1 <;> subst h1 <;> decide

theorem financial_not_balance (intent : String) (h : isFinancial intent = true) :
    (intent == sBALANCE) = false := by
  rcases isFinancial_cases intent h with h1 | h1 <;> subst h1 <;> decide

theorem financial_not_settle (intent : String) (h : isFinancial intent = true) :
    (intent == sSETTLE) = false := by
  rcases isFinancial_cases intent h with h1 | h1 <;> subst h1 <;> decide

/-- An incomplete financial parse re-prompts: the accumulated transcript is
stored and the combined missing-fields question is asked. -/
theorem handleParsed_clarify_of_missing (w : WriteOutcome) (ctx : Ctx)
    (pending : Option String) (ft : String) (p : Parsed)
    (hfin : isFinancial p.intent = true)
    (hmf : (missingFields p.intent p.amount (autofillDesc p.intent p.description)
      p.involved).isEmpty = false) :
    handleParsed w ctx pending ft (some p) =
      ⟨some ft, [], Reply.clarify (msgMissingPre ++
        pyJoin commaSpace
          (missingFields p.intent p.amount (autofillDesc p.intent p.description) p.involved) ++
        msgMissingPost)⟩ := by
  unfold handleParsed
  dsimp only
  rw [hfin]
  simp only [if_true, hmf, Bool.not_false, Bool.or_true, if_pos rfl]

/-- A complete financial parse commits, with the outcome decided by the
store write. -/
theorem handleParsed_commit (w : WriteOutcome) (ctx : Ctx)
    (pending : Option String) (ft : String) (p : Parsed)
    (hfin : isFinancial p.intent = true)
    (hmf : missingFields p.intent p.amount (autofillDesc p.intent p.description)
      p.involved = []) :
    handleParsed w ctx pending ft (some p) =
      match w with
      | WriteOutcome.ok =>
        ⟨none,
         [mkRow ctx p.amount (autofillDesc p.intent p.description)
           (defaultInvolved p.intent p.involved)],
         Reply.logged p.intent p.amount (autofillDesc p.intent p.description)
           (pyJoin commaSpace (defaultInvolved p.intent p.involved))⟩
      | WriteOutcome.noSheet =>
        ⟨none, [],
         Reply.logged p.intent p.amount (autofillDesc p.intent p.description)
           (pyJoin commaSpace (defaultInvolved p.intent p.involved))⟩
      | WriteOutcome.raiseErr => ⟨pending, [], Reply.saveError⟩ := by
  unfold handleParsed
  dsimp only
  rw [hfin]
  simp only [if_true, hmf, List.isEmpty_nil, Bool.not_true, Bool.or_false,
    financial_not_unknown p.intent hfin, financial_not_balance p.intent hfin,
    financial_not_settle p.intent hfin, Bool.false_eq_true, if_false]
  cases w <;> rfl

/-- No non-financial branch ever appends a ledger row. -/
theorem handleParsed_nonfinancial_appended (w : WriteOutcome) (ctx : Ctx)
    (pending : Option String) (ft : String) (p : Parsed)
    (hfin : isFinancial p.intent = false) :
    (handleParsed w ctx pending ft (some p)).appended = [] := by
  unfold handleParsed
  dsimp only
  rw [hfin]
  by_cases h1 : (p.intent == sUNKNOWN) = true
  · simp [h1]
  · rw [Bool.of_not_eq_true h1]
    by_cases h2 : (p.intent == sBALANCE) = true
    · simp [h2]
    · rw [Bool.of_not_eq_true h2]
      by_cases h3 : (p.intent == sSETTLE) = true
      · by_cases h4 : pyFalsyStr p.target_user = true <;> simp [h3, h4]
      · rw [Bool.of_not_eq_true h3]
        simp

/-- Any appended row comes from a complete financial parse committed with
a successful write, and is exactly the row the source builds. -/
theorem handleParsed_appended_sub (w : WriteOutcome) (ctx : Ctx) (pending : Option String)
    (ft : String) (po : Option Parsed) (r : SheetRow)
    (hr : r ∈ (handleParsed w ctx pending ft po).appended) :
    ∃ p, po = some p ∧ isFinancial p.intent = true ∧
      missingFields p.intent p.amount (autofillDesc p.intent p.description) p.involved = [] ∧
      r = mkRow ctx p.amount (autofillDesc p.intent p.description)
        (defaultInvolved p.intent p.involved) ∧ w = WriteOutcome.ok := by
  cases po with
  | none => simp [handleParsed] at hr
  | some p =>
    by_cases hfin : isFinancial p.intent = true
    · by_cases hmf : missingFields p.intent p.amount (autofillDesc p.intent p.description)
        p.involved = []
      · rw [handleParsed_commit w ctx pending ft p hfin hmf] at hr
        cases w with
        | ok =>
          simp only [List.mem_singleton] at hr
          exact ⟨p, rfl, hfin, hmf, hr, rfl⟩
        | noSheet => simp at hr
        | raiseErr => simp at hr
      · have hmf' : (missingFields p.intent p.amount (autofillDesc p.intent p.description)
            p.involved).isEmpty = false := by
          cases h : (missingFields p.intent p.amount (autofillDesc p.intent p.description)
              p.involved).isEmpty
          · rfl
          · exact absurd (List.isEmpty_iff.mp h) hmf
        rw [handleParsed_clarify_of_missing w ctx pending ft p hfin hmf'] at hr
        simp at hr
    · rw [handleParsed_nonfinancial_appended w ctx pending ft p
        (Bool.of_not_eq_true hfin)] at hr
      simp at hr

/-! ## Claim theorems -/

/-- Claim C2: when a pending action exists for the key, the handler
space-joins the new text onto the stored transcript and resubmits the
whole transcript to the adapter; consequently, a first message whose parse
lacks an amount followed by a second message completing it to amount 20
yields exactly one committed ledger entry with amount 20 — the first turn
appends nothing and only stores the transcript. -/
theorem c2_transcript_merge_single_commit :
    (∀ (parse : String → Option Parsed) (w : WriteOutcome) (ctx : Ctx) (prev t : String),
      process_natural_language parse w ctx (some prev) t =
        handleParsed w ctx (some prev) (prev ++ spaceS ++ t)
          (parse (prev ++ spaceS ++ t))) ∧
    (∀ (parse : String → Option Parsed) (w : WriteOutcome) (ctx : Ctx) (t1 t2 : String)
       (p1 p2 : Parsed),
      parse t1 = some p1 → p1.intent = sEXPENSE → p1.amount = none →
      parse (t1 ++ spaceS ++ t2) = some p2 → p2.intent = sEXPENSE →
      p2.amount = some 20 →
      missingFields p2.intent p2.amount (autofillDesc p2.intent p2.description)
        p2.involved = [] →
      (process_natural_language parse w ctx none t1).appended = [] ∧
      (process_natural_language parse w ctx none t1).pendingAfter = some t1 ∧
      (process_natural_language parse WriteOutcome.ok ctx (some t1) t2).appended.map
        (fun r => r.amount) = [some 20] ∧
      (process_natural_language parse WriteOutcome.ok ctx (some t1) t2).pendingAfter =
        none) := by
  constructor
  · intro parse w ctx prev t
    rfl
  · intro parse w ctx t1 t2 p1 p2 h1 hi1 ha1 h2 hi2 ha2 hmf2
    have hfin1 : isFinancial p1.intent = true := by rw [hi1]; rfl
    have hfin2 : isFinancial p2.intent = true := by rw [hi2]; rfl
    have hmf1 : (missingFields p1.intent p1.amount
        (autofillDesc p1.intent p1.description) p1.involved).isEmpty = false := by
      simp [missingFields, pyFalsyNum, ha1]
    have e1 : process_natural_language parse w ctx none t1 =
        handleParsed w ctx none t1 (parse t1) := rfl
    have e2 : process_natural_language parse WriteOutcome.ok ctx (some t1) t2 =
        handleParsed WriteOutcome.ok ctx (some t1) (t1 ++ spaceS ++ t2)
          (parse (t1 ++ spaceS ++ t2)) := rfl
    rw [e1, h1, handleParsed_clarify_of_missing w ctx none t1 p1 hfin1 hmf1, e2, h2,
      handleParsed_commit WriteOutcome.ok ctx (some t1) _ p2 hfin2 hmf2]
    refine ⟨rfl, rfl, ?_, rfl⟩
    simp [mkRow, ha2]

/-- Witness for C2: the two-turn scenario run on the concrete adapter
`parseW` ("lunch" then "20"). -/
theorem c2_witness :
    (process_natural_language parseW WriteOutcome.ok ctx0 none tLunch).appended = [] ∧
    (process_natural_language parseW WriteOutcome.ok ctx0 none tLunch).pendingAfter =
      some tLunch ∧
    (process_natural_language parseW WriteOutcome.ok ctx0 (some tLunch) t20).appended.map
      (fun r => r.amount) = [some 20] ∧
    (process_natural_language parseW WriteOutcome.ok ctx0 (some tLunch) t20).pendingAfter =
      none :=
  c2_transcript_merge_single_commit.2 parseW WriteOutcome.ok ctx0 tLunch t20
    pLunchNoAmt pLunch20 (by with_unfolding_all decide) rfl rfl
    (by with_unfolding_all decide) rfl (by with_unfolding_all decide)
    (by with_unfolding_all decide)

/-- Claim C3 (amended): on a fully valid commit, a raising append is
reported as a save error with the pending action preserved and nothing
appended, and a successful append commits the row, clears pending and
confirms; but when the sheet handle cannot be obtained the append is
silently skipped while the success confirmation is still emitted and
pending cleared — so the success confirmation is not a guarantee that the
row was appended. -/
theorem c3_write_failure_amended (parse : String → Option Parsed) (w : WriteOutcome)
    (ctx : Ctx) (pending : Option String) (t : String) (p : Parsed)
    (hp : parse (fullTextOf pending t) = some p)
    (hfin : isFinancial p.intent = true)
    (hmf : missingFields p.intent p.amount (autofillDesc p.intent p.description)
      p.involved = []) :
    (w = WriteOutcome.raiseErr →
      (process_natural_language parse w ctx pending t).reply = Reply.saveError ∧
      (process_natural_language parse w ctx pending t).pendingAfter = pending ∧
      (process_natural_language parse w ctx pending t).appended = []) ∧
    (w = WriteOutcome.ok →
      (process_natural_language parse w ctx pending t).appended =
        [mkRow ctx p.amount (autofillDesc p.intent p.description)
          (defaultInvolved p.intent p.involved)] ∧
      (process_natural_language parse w ctx pending t).pendingAfter = none) ∧
    (w = WriteOutcome.noSheet →
      (process_natural_language parse w ctx pending t).appended = [] ∧
      (process_natural_language parse w ctx pending t).pendingAfter = none ∧
      (process_natural_language parse w ctx pending t).reply =
        Reply.logged p.intent p.amount (autofillDesc p.intent p.description)
          (pyJoin commaSpace (defaultInvolved p.intent p.involved))) := by
  have e : process_natural_language parse w ctx pending t =
      handleParsed w ctx pending (fullTextOf pending t) (parse (fullTextOf pending t)) := rfl
  rw [e, hp, handleParsed_commit w ctx pending _ p hfin hmf]
  refine ⟨?_, ?_, ?_⟩ <;> intro hw <;> subst hw
  · exact ⟨rfl, rfl, rfl⟩
  · exact ⟨rfl, rfl⟩
  · exact ⟨rfl, rfl, rfl⟩

/-- Counterexample for C3 as stated: with the sheet handle unavailable the
commit of a fully valid expense emits the success confirmation and clears
the pending action even though no row was appended, so the success
confirmation is not emitted "only when the row was actually appended". -/
theorem c3_counterexample :
    (process_natural_language parseLunch20 WriteOutcome.noSheet ctx0 none tLunch).reply =
      Reply.logged sEXPENSE (some 20) (some (String.append emptyS "Lunch")) sALL ∧
    (process_natural_language parseLunch20 WriteOutcome.noSheet ctx0 none tLunch).appended =
      [] ∧
    (process_natural_language parseLunch20 WriteOutcome.noSheet ctx0 none
      tLunch).pendingAfter = none := by
  with_unfolding_all decide

/-- Witness for C3: the raising-append case on the concrete scenario —
save error reported, pending preserved, nothing appended. -/
theorem c3_witness :
    (process_natural_language parseLunch20 WriteOutcome.raiseErr ctx0 (some tLunch)
      t20).reply = Reply.saveError ∧
    (process_natural_language parseLunch20 WriteOutcome.raiseErr ctx0 (some tLunch)
      t20).pendingAfter = some tLunch ∧
    (process_natural_language parseLunch20 WriteOutcome.raiseErr ctx0 (some tLunch)
      t20).appended = [] :=
  (c3_write_failure_amended parseLunch20 WriteOutcome.raiseErr ctx0 (some tLunch) t20
    pLunch20 rfl rfl (by with_unfolding_all decide)).1 rfl

/-- Claim C6: when the adapter fails on the submitted transcript, the
handler replies with the generic failure message and deletes the pending
action for the key, whatever it was. -/
theorem c6_adapter_failure_clears_pending (parse : String → Option Parsed)
    (w : WriteOutcome) (ctx : Ctx) (pending : Option String) (t : String)
    (h : parse (fullTextOf pending t) = none) :
    process_natural_language parse w ctx pending t = ⟨none, [], Reply.brainFreeze⟩ := by
  unfold process_natural_language
  rw [h]
  rfl

/-- Witness for C6: the always-failing adapter on a key with pending
text. -/
theorem c6_witness :
    process_natural_language parseNone WriteOutcome.ok ctx0 (some tLunch) t20 =
      ⟨none, [], Reply.brainFreeze⟩ :=
  c6_adapter_failure_clears_pending parseNone WriteOutcome.ok ctx0 (some tLunch) t20 rfl

/-- Claim C7: a `PAYMENT` parse whose `involved` list is empty or contains
the literal `ALL` fails validation — `Who (Recipient)` is added to the
missing fields and the handler re-prompts instead of committing — and a
`PAYMENT` that does append a row has a non-empty, `ALL`-free recipient
list. -/
theorem c7_payment_requires_recipient :
    (∀ (parse : String → Option Parsed) (w : WriteOutcome) (ctx : Ctx)
       (pending : Option String) (t : String) (p : Parsed),
      parse (fullTextOf pending t) = some p → p.intent = sPAYMENT →
      p.involved = [] ∨ sALL ∈ p.involved →
      sWhoRecipient ∈ missingFields p.intent p.amount
        (autofillDesc p.intent p.description) p.involved ∧
      ∃ q, process_natural_language parse w ctx pending t =
        ⟨some (fullTextOf pending t), [], Reply.clarify q⟩) ∧
    (∀ (parse : String → Option Parsed) (w : WriteOutcome) (ctx : Ctx)
       (pending : Option String) (t : String) (p : Parsed),
      parse (fullTextOf pending t) = some p → p.intent = sPAYMENT →
      (process_natural_language parse w ctx pending t).appended ≠ [] →
      p.involved ≠ [] ∧ sALL ∉ p.involved) := by
  have main : ∀ (parse : String → Option Parsed) (w : WriteOutcome) (ctx : Ctx)
      (pending : Option String) (t : String) (p : Parsed),
      parse (fullTextOf pending t) = some p → p.intent = sPAYMENT →
      p.involved = [] ∨ sALL ∈ p.involved →
      sWhoRecipient ∈ missingFields p.intent p.amount
        (autofillDesc p.intent p.description) p.involved ∧
      process_natural_language parse w ctx pending t =
        ⟨some (fullTextOf pending t), [],
         Reply.clarify (msgMissingPre ++
           pyJoin commaSpace (missingFields p.intent p.amount
             (autofillDesc p.intent p.description) p.involved) ++ msgMissingPost)⟩ := by
    intro parse w ctx pending t p hp hi hinv
    have hfin : isFinancial p.intent = true := by rw [hi]; rfl
    have hc : (p.intent == sPAYMENT &&
        (p.involved.isEmpty || p.involved.contains sALL)) = true := by
      rcases hinv with h | h
      · simp [hi, h]
      · simp [hi, h]
    have hmem : sWhoRecipient ∈ missingFields p.intent p.amount
        (autofillDesc p.intent p.description) p.involved := by
      unfold missingFields
      rw [hc]
      simp
    have hmf : (missingFields p.intent p.amount (autofillDesc p.intent p.description)
        p.involved).isEmpty = false := by
      cases he : (missingFields p.intent p.amount (autofillDesc p.intent p.description)
          p.involved).isEmpty
      · rfl
      · rw [List.isEmpty_iff.mp he] at hmem
        cases hmem
    have e : process_natural_language parse w ctx pending t =
        handleParsed w ctx pending (fullTextOf pending t)
          (parse (fullTextOf pending t)) := rfl
    rw [e, hp, handleParsed_clarify_of_missing w ctx pending _ p hfin hmf]
    exact ⟨hmem, rfl⟩
  constructor
  · intro parse w ctx pending t p hp hi hinv
    rcases main parse w ctx pending t p hp hi hinv with ⟨hmem, hres⟩
    exact ⟨hmem, ⟨_, hres⟩⟩
  · intro parse w ctx pending t p hp hi happ
    by_cases hinv : p.involved = [] ∨ sALL ∈ p.involved
    · exfalso
      rcases main parse w ctx pending t p hp hi hinv with ⟨_, hres⟩
      rw [hres] at happ
      exact happ rfl
    · push_neg at hinv
      exact hinv

/-- Witness for C7: a concrete `PAYMENT` whose recipients are `[ALL]` is
re-prompted with `Who (Recipient)` among the missing fields. -/
theorem c7_witness :
    sWhoRecipient ∈ missingFields pPayAll.intent pPayAll.amount
      (autofillDesc pPayAll.intent pPayAll.description) pPayAll.involved ∧
    ∃ q, process_natural_language parsePayAll WriteOutcome.ok ctx0 none tLunch =
      ⟨some tLunch, [], Reply.clarify q⟩ :=
  c7_payment_requires_recipient.1 parsePayAll WriteOutcome.ok ctx0 none tLunch pPayAll
    rfl rfl (Or.inr (by with_unfolding_all decide))

/-- Claim C8 (amended): every row the commit path appends carries a
present, nonzero amount — the `not amount` truthiness check is the only
guard, so zero and missing amounts never commit but negative amounts
do. -/
theorem c8_appended_amount_truthy (parse : String → Option Parsed) (w : WriteOutcome)
    (ctx : Ctx) (pending : Option String) (t : String) (r : SheetRow)
    (hr : r ∈ (process_natural_language parse w ctx pending t).appended) :
    ∃ a : ℚ, r.amount = some a ∧ a ≠ 0 := by
  rcases handleParsed_appended_sub w ctx pending (fullTextOf pending t)
      (parse (fullTextOf pending t)) r hr with ⟨p, hpo, hfin, hmf, hrow, hw⟩
  have hA : pyFalsyNum p.amount = false := by
    by_contra hA
    have hA' : pyFalsyNum p.amount = true := by
      cases h : pyFalsyNum p.amount
      · exact absurd h hA
      · rfl
    unfold missingFields at hmf
    rw [hA'] at hmf
    simp at hmf
  cases ha : p.amount with
  | none => rw [ha] at hA; exact absurd hA (by simp [pyFalsyNum])
  | some a =>
    refine ⟨a, ?_, ?_⟩
    · rw [hrow]
      simp [mkRow, ha]
    · intro h0
      rw [ha] at hA
      simp [pyFalsyNum, h0] at hA

/-- Counterexample for C8 as stated: an adapter answer with amount `-5`
passes the truthiness-only validation and is committed, so not every
appended ledger entry has amount greater than zero. -/
theorem c8_counterexample :
    (process_natural_language parseNeg WriteOutcome.ok ctx0 none tLunch).appended.map
      (fun r => r.amount) = [some (-5)] ∧ ¬ ((0 : ℚ) < -5) := by
  with_unfolding_all decide

/-- Witness for C8: the committed example row has the present nonzero
amount 20. -/
theorem c8_witness :
    ∃ a : ℚ, exCommitRow.amount = some a ∧ a ≠ 0 :=
  c8_appended_amount_truthy parseLunch20 WriteOutcome.ok ctx0 none tLunch exCommitRow
    (by with_unfolding_all decide)

/-- Claim C1: every ledger row kept by the balance computation (matching
group id, parseable amount, non-empty raw and resolved participant sets)
credits the payer's balance by the full amount and debits each resolved
participant (once per occurrence in `split_between`) by the amount divided
by the number of participants; in particular, for the roster
`{Alice: @alice, Bob: @bob}` and the single entry (amount 20, payer Alice,
participants `ALL`), the balances are `@alice ↦ +10` and `@bob ↦ -10`. -/
theorem c1_row_effect_and_example :
    (∀ (lk : List (String × String)) (gid : String) (b : Bal) (row : List String) (a : ℚ),
      6 < row.length ∧ row.getD 6 emptyS = gid →
      parseAmount (row.getD 1 emptyS) = some a →
      (splitCSV (row.getD 4 emptyS)).isEmpty = false →
      (splitBetween lk (row.getD 4 emptyS)).isEmpty = false →
      ∀ h : String,
        balGet (processRow lk gid b row) h =
          balGet b h + (if h = resolve lk (row.getD 3 emptyS) then a else 0) -
            ((splitBetween lk (row.getD 4 emptyS)).count h : ℚ) *
              (a / ((splitBetween lk (row.getD 4 emptyS)).length : ℚ))) ∧
    balGet (get_balances [exHeader, exRow1] exUsers exG1) exAlice = 10 ∧
    balGet (get_balances [exHeader, exRow1] exUsers exG1) exBob = -10 :=
  ⟨fun lk gid b row a hg hpa hr hs h => processRow_delta lk gid b row a hg hpa hr hs h,
   by with_unfolding_all decide, by with_unfolding_all decide⟩

/-- Witness for C1: the general row statement instantiated on the worked
example's row, payer credit and one share debited for `@bob`. -/
theorem c1_witness :
    balGet (processRow exLk exG1 [] exRow1) exBob =
      balGet ([] : Bal) exBob + (if exBob = resolve exLk (exRow1.getD 3 emptyS) then 20 else 0) -
        ((splitBetween exLk (exRow1.getD 4 emptyS)).count exBob : ℚ) *
          (20 / ((splitBetween exLk (exRow1.getD 4 emptyS)).length : ℚ)) :=
  c1_row_effect_and_example.1 exLk exG1 [] exRow1 20 (by with_unfolding_all decide)
    (by with_unfolding_all decide) (by with_unfolding_all decide)
    (by with_unfolding_all decide) exBob

/-- Counterexample for C4 as stated: on the colliding roster the `ALL`
expansion is `["@x"]`, although `Bob` is a canonical handle of the current
roster — the expansion is not the set of canonical roster handles. -/
theorem c4_counterexample :
    splitBetween (get_user_map badUsers exG1).1 sALL = [xHandle] ∧
    bobHandle ∈ (update_user_cache badUsers exG1).map (fun p => p.2) ∧
    bobHandle ∉ splitBetween (get_user_map badUsers exG1).1 sALL := by
  with_unfolding_all decide

/-- Claim C4 (amended): a participants cell containing the literal `ALL`
expands to the deduplicated handle values of the normalization lookup;
that set coincides with the set of canonical roster handles whenever
distinct roster entries share no lowercased lookup key (the colliding
roster of the counterexample loses a handle); and a row whose expansion is
empty is skipped, contributing nothing to any balance. -/
theorem c4_all_expansion_amended :
    (∀ (lk : List (String × String)) (cell : String),
      (splitCSV cell).contains sALL = true →
      splitBetween lk cell = (lk.map (fun p => p.2)).dedup) ∧
    (∀ (roster : List (String × String)) (cell : String) (h : String),
      disjointEntryKeys roster → (splitCSV cell).contains sALL = true →
      (h ∈ splitBetween (build_lookup roster) cell ↔ h ∈ roster.map (fun p => p.2))) ∧
    (∀ (lk : List (String × String)) (gid : String) (b : Bal) (row : List String),
      (splitBetween lk (row.getD 4 emptyS)).isEmpty = true →
      processRow lk gid b row = b) := by
  have part1 : ∀ (lk : List (String × String)) (cell : String),
      (splitCSV cell).contains sALL = true →
      splitBetween lk cell = (lk.map (fun p => p.2)).dedup := by
    intro lk cell hc
    unfold splitBetween
    dsimp only
    rw [hc]
    simp
  refine ⟨part1, fun roster cell h hd hc => ?_,
    fun lk gid b row hs => processRow_skip lk gid b row (Or.inr (Or.inr (Or.inr hs)))⟩
  rw [part1 (build_lookup roster) cell hc, List.mem_dedup]
  exact mem_expansion_iff roster h hd

/-- Witness for C4: on the collision-free example roster the expansion
membership coincides with roster-handle membership. -/
theorem c4_witness :
    exAlice ∈ splitBetween (build_lookup (update_user_cache exUsers exG1)) sALL ↔
      exAlice ∈ (update_user_cache exUsers exG1).map (fun p => p.2) :=
  c4_all_expansion_amended.2.1 (update_user_cache exUsers exG1) sALL exAlice
    (by unfold disjointEntryKeys; with_unfolding_all decide)
    (by with_unfolding_all decide)

/-- Claim C5: a row whose amount cell is empty or unparseable after
stripping is skipped (the fold value is returned unchanged, so no
exception is possible), and removing such a row from the iterated list
leaves the aggregation of the others intact. -/
theorem c5_malformed_amount_skipped :
    (∀ (lk : List (String × String)) (gid : String) (b : Bal) (row : List String),
      parseAmount (row.getD 1 emptyS) = none → processRow lk gid b row = b) ∧
    (∀ (lk : List (String × String)) (gid : String) (b : Bal)
      (pre post : List (List String)) (row : List String),
      parseAmount (row.getD 1 emptyS) = none →
      (pre ++ row :: post).foldl (processRow lk gid) b =
        (pre ++ post).foldl (processRow lk gid) b) := by
  constructor
  · intro lk gid b row h
    exact processRow_skip lk gid b row (Or.inr (Or.inl h))
  · intro lk gid b pre post row h
    rw [List.foldl_append, List.foldl_append, List.foldl_cons,
      processRow_skip lk gid _ row (Or.inr (Or.inl h))]

/-- Witness for C5: the row with amount cell `12.3.4USD` (two decimal
points after stripping) is dropped and does not disturb the example
row's aggregation. -/
theorem c5_witness :
    processRow exLk exG1 [] badAmountRow = [] ∧
    ([exRow1] ++ badAmountRow :: []).foldl (processRow exLk exG1) [] =
      ([exRow1] ++ []).foldl (processRow exLk exG1) [] :=
  ⟨c5_malformed_amount_skipped.1 exLk exG1 [] badAmountRow (by with_unfolding_all decide),
   c5_malformed_amount_skipped.2 exLk exG1 [] [exRow1] [] badAmountRow
     (by with_unfolding_all decide)⟩

/-- Claim C9 (conservation): each processed row credits the payer exactly
what it debits across the participants, so every fold prefix keeps the
total of all balances at zero, and `get_balances` always returns balances
summing to zero. -/
theorem c9_balances_sum_zero :
    (∀ (lk : List (String × String)) (gid : String) (b : Bal) (row : List String),
      sumBal (processRow lk gid b row) = sumBal b) ∧
    (∀ (lk : List (String × String)) (gid : String) (rows : List (List String)),
      sumBal (rows.foldl (processRow lk gid) []) = 0) ∧
    (∀ (rows : List (List String)) (users : List UserRow) (gid : String),
      sumBal (get_balances rows users gid) = 0) := by
  refine ⟨processRow_sum, fun lk gid rows => ?_, fun rows users gid => ?_⟩
  · rw [sumBal_foldl_rows]; rfl
  · unfold get_balances
    split
    · rfl
    · rw [sumBal_foldl_rows]; rfl

/-- Claim C10: registering a bot user is a complete no-op — the `Users`
rows and the roster cache are unchanged and no identity-store operation is
performed. -/
theorem c10_register_bot_noop (users : List UserRow)
    (cache : List (String × List (String × String))) (u : TgUser) (chatId : String)
    (h : u.is_bot = true) :
    register_user users cache u chatId = (users, cache, []) := by
  unfold register_user
  rw [if_pos h]

/-- Witness for C10: a concrete bot user against the example store. -/
theorem c10_witness : register_user exUsers [] botU exG1 = (exUsers, [], []) :=
  c10_register_bot_noop exUsers [] botU exG1 (by decide)

end GangBot
